import Mathlib

/-!
Verification of the scope-resolution and dispatch engine of an HCL2
configuration-evaluation library.

The development shallowly embeds the engine's two coexisting implementation
layers:

* the exec-world (`exec.py`, `eval.py`, `matrix.py`, `env.py`): `ExecContext`
  scope chains, the `Eval`/`EvalContext` expression evaluators and the
  `MatrixBlock` Cartesian-product expansion.  `exec.py` contains its own
  duplicate of `MatrixBlock` (using `with_variables`) next to the one in
  `matrix.py` (using the undefined `sub_context`); both are embedded and kept
  apart by the `MatrixImpl` tag.
* the api-world (`api.py`, `stanza.py`, `error.py`): `Context` chains over
  `Stanza` targets, the `Evaluator` and the `Interpreter`.

General recursion of the evaluators is bounded by an explicit fuel parameter;
`fuelExhausted` errors are an artifact of the embedding, not of the program.
-/

/-- Runtime values exchanged by the engine (`types.py` `ValueType`), minus
floats, which no verified property concerns. Python dicts are modelled as
insertion-ordered association lists. -/
inductive Val where
  | null
  | bool (b : Bool)
  | int (n : Int)
  | str (s : String)
  | list (xs : List Val)
  | map (fields : List (String × Val))

/-- Python exceptions observable in the exec-world. `unmodelled` marks
behaviour outside the embedding (float results, bitwise integer operators,
string templating with placeholders); `fuelExhausted` is an artifact of the
fuel-bounded embedding. -/
inductive ExErr where
  | attributeError
  | typeError
  | valueError
  | keyError
  | zeroDivisionError
  | exception
  | unmodelled
  | fuelExhausted
deriving DecidableEq, Repr

/-- The iteration pattern of `itertools.product`: the first factor is the
outermost loop, the last factor varies fastest. -/
def prodList {α : Type} : List (List α) → List (List α)
  | [] => [[]]
  | f :: rest => f.flatMap (fun x => (prodList rest).map (fun t => x :: t))

/-- `MatrixBlock.cross_product` (identical in `matrix.py` and in the duplicate
inside `exec.py`): factors are the stored `_values` dict in insertion order;
each combination is the dict built from one `(key, value)` pair per factor. -/
def cross_product (values : List (String × List Val)) : List (List (String × Val)) :=
  prodList (values.map (fun kv => kv.2.map (fun v => (kv.1, v))))

/-- Assignment into a Python dict: overwriting an existing key keeps its
insertion position, a new key is appended. -/
def dictSet {α : Type} : List (String × α) → String → α → List (String × α)
  | [], k, v => [(k, v)]
  | (k2, v2) :: rest, k, v =>
    if k2 = k then (k, v) :: rest else (k2, v2) :: dictSet rest k v

/-- The coercion in `MatrixBlock.attr_set`: a non-list value becomes a
one-element list, a list is stored as-is. -/
def coerceFactor (v : Val) : List Val :=
  match v with
  | .list xs => xs
  | v => [v]

/-- `MatrixBlock.attr_set` (identical in both copies): stores the evaluated
right-hand side `v` as the factor list for `key`. -/
def attr_set (values : List (String × List Val)) (key : String) (v : Val) :
    List (String × List Val) :=
  dictSet values key (coerceFactor v)

/-- Call trace of `MatrixBlock.open_block` from the duplicate inside `exec.py`:
one invocation of the original enclosing block's opener per combination, each
carrying that combination's variable bindings (`ctx.with_variables`). -/
def open_block_exec (values : List (String × List Val)) :
    Except ExErr (List (List (String × Val))) :=
  .ok (cross_product values)

/-- Call trace of `MatrixBlock.open_block` from `matrix.py`: the loop body
calls `ctx.sub_context(variables)`, but `ExecContext` defines no `sub_context`
method (only `with_variables`), so the first iteration raises
`AttributeError`; with no combinations the loop body never runs. -/
def open_block_matrix (values : List (String × List Val)) :
    Except ExErr (List (List (String × Val))) :=
  match cross_product values with
  | [] => .ok []
  | _ :: _ => .error .attributeError

section MatrixLemmas

theorem prodList_length {α : Type} (fs : List (List α)) :
    (prodList fs).length = (fs.map List.length).prod := by
  induction fs with
  | nil => simp [prodList]
  | cons f rest ih =>
    simp [prodList, List.length_flatMap, Function.comp_def, List.length_map,
      List.map_const', List.sum_replicate, smul_eq_mul, ih]

theorem mem_prodList_shape {α : Type} (fs : List (List α)) (t : List α)
    (ht : t ∈ prodList fs) : t.length = fs.length := by
  induction fs generalizing t with
  | nil => simp [prodList] at ht; simp [ht]
  | cons f rest ih =>
    simp only [prodList, List.mem_flatMap, List.mem_map] at ht
    obtain ⟨x, _, t', ht', rfl⟩ := ht
    simp [ih t' ht']

theorem cross_product_keys (values : List (String × List Val))
    (combo : List (String × Val)) (hc : combo ∈ cross_product values) :
    combo.map Prod.fst = values.map Prod.fst := by
  induction values generalizing combo with
  | nil => simp [cross_product, prodList] at hc; simp [hc]
  | cons kv rest ih =>
    simp only [cross_product, List.map_cons, prodList, List.mem_flatMap,
      List.mem_map] at hc
    obtain ⟨x, hx, t, ht, rfl⟩ := hc
    obtain ⟨v, _, rfl⟩ := hx
    simpa using ih t ht

theorem cross_product_length (values : List (String × List Val)) :
    (cross_product values).length = (values.map (fun kv => kv.2.length)).prod := by
  simp [cross_product, prodList_length, List.map_map, Function.comp_def]

theorem prodList_concat {α : Type} (fs : List (List α)) (g : List α) :
    prodList (fs ++ [g]) =
      (prodList fs).flatMap (fun t => g.map (fun x => t ++ [x])) := by
  induction fs with
  | nil =>
    simp [prodList, ← List.map_eq_flatMap]
  | cons f rest ih =>
    simp [prodList, ih, List.map_flatMap, List.flatMap_map, List.flatMap_assoc,
      List.map_map, Function.comp_def]

theorem cross_product_concat (init : List (String × List Val)) (k : String)
    (vs : List Val) :
    cross_product (init ++ [(k, vs)]) =
      (cross_product init).flatMap (fun c => vs.map (fun v => c ++ [(k, v)])) := by
  rw [cross_product, List.map_append, List.map_singleton, prodList_concat]
  simp [cross_product, List.map_map, Function.comp_def]

end MatrixLemmas

/-- C1: for `k >= 1` factors of sizes `n1..nk` in declaration order,
`cross_product()` yields exactly `n1 * ... * nk` binding maps, each with one
entry per factor key (in declaration order), and the last-declared factor
varies fastest: splitting off the last factor, the enumeration is the product
over the earlier factors with the last factor cycled innermost, i.e. nested
loops with the first factor outermost. -/
theorem cross_product_cardinality_keys_order (values : List (String × List Val))
    (hk : 1 ≤ values.length) :
    (cross_product values).length = (values.map (fun kv => kv.2.length)).prod
    ∧ (∀ combo ∈ cross_product values, combo.map Prod.fst = values.map Prod.fst)
    ∧ (∀ init k vs, values = init ++ [(k, vs)] →
        cross_product values =
          (cross_product init).flatMap (fun c => vs.map (fun v => c ++ [(k, v)]))) := by
  refine ⟨cross_product_length values, ?_, ?_⟩
  · exact fun combo hc => cross_product_keys values combo hc
  · intro init k vs hsplit
    subst hsplit
    exact cross_product_concat init k vs

/-- Witness for C1 at the two-factor matrix `a = [1, 2]; b = ["x"]`. -/
theorem cross_product_cardinality_keys_order_witness :
    1 ≤ [("a", [Val.int 1, Val.int 2]), ("b", [Val.str "x"])].length ∧
    ((cross_product [("a", [Val.int 1, Val.int 2]), ("b", [Val.str "x"])]).length
        = ([("a", [Val.int 1, Val.int 2]), ("b", [Val.str "x"])].map
            (fun kv => kv.2.length)).prod
      ∧ (∀ combo ∈ cross_product [("a", [Val.int 1, Val.int 2]), ("b", [Val.str "x"])],
          combo.map Prod.fst
            = [("a", [Val.int 1, Val.int 2]), ("b", [Val.str "x"])].map Prod.fst)
      ∧ (∀ init k vs,
          [("a", [Val.int 1, Val.int 2]), ("b", [Val.str "x"])] = init ++ [(k, vs)] →
          cross_product [("a", [Val.int 1, Val.int 2]), ("b", [Val.str "x"])] =
            (cross_product init).flatMap (fun c => vs.map (fun v => c ++ [(k, v)])))) :=
  ⟨by decide,
   cross_product_cardinality_keys_order
     [("a", [Val.int 1, Val.int 2]), ("b", [Val.str "x"])] (by decide)⟩

/-- C2 counterexample: with zero declared factors `itertools.product()` yields
the single empty tuple, so `cross_product()` yields one combination (the empty
binding map), not zero. -/
theorem cross_product_zero_factors_counterexample :
    cross_product ([] : List (String × List Val)) = [[]]
    ∧ (cross_product ([] : List (String × List Val))).length ≠ 0 :=
  ⟨rfl, by decide⟩

/-- C2 amended: zero declared factors yields exactly one combination (the
empty binding map — the empty product is 1), and `open_block` consequently
performs one expansion attempt rather than zero: the `exec.py` MatrixBlock
invokes the enclosing block's opener exactly once, with empty bindings, while
the `matrix.py` MatrixBlock raises `AttributeError` (its loop body calls the
undefined `ctx.sub_context`) before any opener invocation. -/
theorem cross_product_zero_factors_amended :
    cross_product ([] : List (String × List Val)) = [[]]
    ∧ open_block_exec [] = .ok [[]]
    ∧ open_block_matrix [] = .error .attributeError :=
  ⟨rfl, rfl, rfl⟩

/-- C9 counterexample: `attr_set` with an evaluated value that is an empty
list stores an empty factor list, refuting the invariant that the stored
factor list is non-empty for every value a set may store. -/
theorem attr_set_empty_list_counterexample :
    (attr_set [] "x" (Val.list [])).lookup "x" = some ([] : List Val)
    ∧ ¬ 0 < (([] : List Val)).length :=
  ⟨rfl, by decide⟩

theorem dictSet_lookup {α : Type} (d : List (String × α)) (k : String) (v : α) :
    (dictSet d k v).lookup k = some v := by
  induction d with
  | nil => simp [dictSet]
  | cons kv rest ih =>
    rcases kv with ⟨k2, v2⟩
    by_cases h : k2 = k
    · subst h
      simp [dictSet]
    · simp only [dictSet, if_neg h, List.lookup_cons,
        beq_eq_false_iff_ne.mpr (Ne.symm h)]
      exact ih

/-- C9 amended: after `attr_set`, the stored factor list for the key is the
coercion of the evaluated value — a one-element list whenever the value is not
a list (hence non-empty in that case), the list itself otherwise; in
particular an empty-list assignment stores an empty factor list, so the stored
list is non-empty only when the assigned value is a non-list or a non-empty
list. -/
theorem attr_set_factor_amended (values : List (String × List Val))
    (key : String) (v : Val) :
    (attr_set values key v).lookup key = some (coerceFactor v)
    ∧ ((∀ xs, v ≠ Val.list xs) → (coerceFactor v).length = 1)
    ∧ (v = Val.list [] → (attr_set values key v).lookup key = some ([] : List Val)) := by
  refine ⟨dictSet_lookup values key (coerceFactor v), ?_, ?_⟩
  · intro h
    cases v with
    | list xs => exact absurd rfl (h xs)
    | null => rfl
    | bool b => rfl
    | int n => rfl
    | str s => rfl
    | map fields => rfl
  · intro h
    subst h
    exact dictSet_lookup values key []

/-- Witness for C9's amended theorem at a scalar assignment `x = 5`. -/
theorem attr_set_factor_amended_witness :
    (attr_set [] "x" (Val.int 5)).lookup "x" = some [Val.int 5]
    ∧ (coerceFactor (Val.int 5)).length = 1 :=
  ⟨(attr_set_factor_amended [] "x" (Val.int 5)).1,
   (attr_set_factor_amended [] "x" (Val.int 5)).2.1 (fun _ h => Val.noConfusion h)⟩

/-! ## The exec-world: AST, contexts and evaluators (`exec.py`, `eval.py`, `matrix.py`) -/

/-- HCL2 expression nodes (external `hcl2_ast` package), restricted to the
kinds the engine evaluates; splat forms and `GetIndex` are omitted (no claim
concerns them). `lit` carries an already-parsed literal value. -/
inductive Expr where
  | lit (v : Val)
  | ident (name : String)
  | array (elems : List Expr)
  | object (fields : List (String × Expr))
  | fnCall (name : String) (args : List Expr)
  | getAttr (obj : Expr) (name : String)
  | unaryOp (op : String) (e : Expr)
  | binaryOp (op : String) (l : Expr) (r : Expr)

/-- Which of the two `MatrixBlock` copies a matrix block instantiates:
`fromMatrixPy` is the class in `matrix.py` (whose loops call the undefined
`ctx.sub_context`), `fromExecPy` the duplicate at the bottom of `exec.py`
(which calls `ctx.with_variables`). -/
inductive MatrixImpl where
  | fromMatrixPy
  | fromExecPy
deriving DecidableEq, Repr

/-- A `Block` instance as seen through its attribute/function interface:
either a plain `Block` subclass with its `__block_attributes__` names and the
instance attributes that are actually set, or a `MatrixBlock` with its
`_values` factor dict. -/
inductive BlockM where
  | plain (recognized : List String) (vals : List (String × Val))
  | matrix (impl : MatrixImpl) (values : List (String × List Val))

/-- An `ExecContext`: local variables, the owning block, the named-sub-block
registry, and an optional parent (`root` has none). -/
inductive Ctx where
  | root (vars : List (String × Val)) (blk : BlockM) (named : List (String × BlockM))
  | sub (vars : List (String × Val)) (blk : BlockM) (named : List (String × BlockM))
      (parent : Ctx)

def Ctx.vars : Ctx → List (String × Val)
  | .root vars _ _ => vars
  | .sub vars _ _ _ => vars

def Ctx.blk : Ctx → BlockM
  | .root _ blk _ => blk
  | .sub _ blk _ _ => blk

def Ctx.named : Ctx → List (String × BlockM)
  | .root _ _ named => named
  | .sub _ _ named _ => named

/-- `Block.attr_get`: raises `AttributeError` when the name is not among the
recognized `__block_attributes__`, and also when it is recognized but the
instance attribute was never set (`getattr` fails). `MatrixBlock` declares no
public block attributes (its fields are underscore-prefixed, which
`__init_subclass__` skips), so its `attr_get` always raises. -/
def block_attr_get : BlockM → String → Except ExErr Val
  | .plain recognized vals, name =>
    if name ∈ recognized then
      match vals.lookup name with
      | some v => .ok v
      | none => .error .attributeError
    else .error .attributeError
  | .matrix _ _, _ => .error .attributeError

/-- `ExecContext.attr_get` for an `Identifier` node: local variables first,
then the owning block, and on `AttributeError` the parent context; with no
parent the `AttributeError` is re-raised. -/
def attr_get : Ctx → String → Except ExErr Val
  | .root vars blk _, name =>
    match vars.lookup name with
    | some v => .ok v
    | none =>
      match block_attr_get blk name with
      | .ok v => .ok v
      | .error .attributeError => .error .attributeError
      | .error e => .error e
  | .sub vars blk _ parent, name =>
    match vars.lookup name with
    | some v => .ok v
    | none =>
      match block_attr_get blk name with
      | .ok v => .ok v
      | .error .attributeError => attr_get parent name
      | .error e => .error e

/-- `ExecContext.with_variables`: a fresh child context sharing the block,
with the given variables bound and an empty named-sub-block registry. -/
def with_variables (c : Ctx) (vars : List (String × Val)) : Ctx :=
  .sub vars c.blk [] c

/-- Helper for `str.split` on the two-character delimiter. -/
def splitDunderGo : List Char → List Char → List String
  | [], acc => [String.mk acc.reverse]
  | '_' :: '_' :: rest, acc => String.mk acc.reverse :: splitDunderGo rest []
  | ch :: rest, acc => splitDunderGo rest (ch :: acc)

/-- Python `name.split` on the qualified-name delimiter (double underscore),
leftmost-first, as used by `ExecContext.function_eval`. -/
def splitDunder (s : String) : List String :=
  splitDunderGo s.data []

/-- The `current` object of `ExecContext.function_eval`'s descent loop: an
execution context, a block, or a plain runtime value. -/
inductive Cur where
  | inCtx (c : Ctx)
  | inBlk (b : BlockM)
  | inVal (v : Val)

/-- The `while len(parts) > 1` descent of `ExecContext.function_eval`: consume
the leading segment through the named-sub-block registry, else through local
variables, else stop; on a non-context `current`, the source does
`getattr(current, parts.pop(0))`, and no qualified segment names an accessible
attribute of a block or plain runtime value, so that raises `AttributeError`
(which propagates out of `function_eval` uncaught). -/
def resolveQual : List String → Cur → Except ExErr (List String × Cur)
  | p :: q :: rest, .inCtx c =>
    match c.named.lookup p with
    | some b => resolveQual (q :: rest) (.inBlk b)
    | none =>
      match c.vars.lookup p with
      | some v => resolveQual (q :: rest) (.inVal v)
      | none => .ok (p :: q :: rest, .inCtx c)
  | _ :: _ :: _, _ => .error .attributeError
  | parts, cur => .ok (parts, cur)

/-- Python truthiness, as applied by `operator.not_`. -/
def pyTruthy : Val → Bool
  | .null => false
  | .bool b => b
  | .int n => n != 0
  | .str s => s != ""
  | .list xs => !xs.isEmpty
  | .map fs => !fs.isEmpty

/-- Numeric view of a value: Python treats `bool` as an `int`. -/
def cmpNum : Val → Option Int
  | .int n => some n
  | .bool b => some (if b then 1 else 0)
  | _ => none

/-- `operator.neg`, defined on numbers, `TypeError` elsewhere. -/
def pyNeg (v : Val) : Except ExErr Val :=
  match cmpNum v with
  | some a => .ok (.int (-a))
  | none => .error .typeError

mutual

/-- Python `==` on runtime values; `bool` compares equal to the matching
`int`. Dict comparison is modelled up to insertion order. -/
def pyEq : Val → Val → Bool
  | .null, .null => true
  | .bool a, .bool b => a == b
  | .bool a, .int n => (if a then (1 : Int) else 0) == n
  | .int n, .bool b => n == (if b then (1 : Int) else 0)
  | .int a, .int b => a == b
  | .str a, .str b => a == b
  | .list xs, .list ys => pyEqList xs ys
  | .map xs, .map ys => pyEqFields xs ys
  | _, _ => false

def pyEqList : List Val → List Val → Bool
  | [], [] => true
  | x :: xs, y :: ys => pyEq x y && pyEqList xs ys
  | _, _ => false

def pyEqFields : List (String × Val) → List (String × Val) → Bool
  | [], [] => true
  | (k1, x) :: xs, (k2, y) :: ys => k1 == k2 && pyEq x y && pyEqFields xs ys
  | _, _ => false

end

/-- Order comparison: numeric against numeric (with `bool` as `int`), string
against string; list/list comparison is left unmodelled, every other pairing
is a `TypeError`. -/
def applyCmp (f : Int → Int → Bool) (g : String → String → Bool) (l r : Val) :
    Except ExErr Val :=
  match cmpNum l, cmpNum r with
  | some a, some b => .ok (.bool (f a b))
  | _, _ =>
    match l, r with
    | .str a, .str b => .ok (.bool (g a b))
    | .list _, .list _ => .error .unmodelled
    | _, _ => .error .typeError

/-- The binary-operator dictionary keys of `Eval._eval_BinaryOp` and
`EvalContext._eval_BinaryOp`. -/
def knownBinOps : List String :=
  ["==", "!=", "<", ">", "<=", ">=", "-", "*", "/", "%", "&&", "||", "+"]

/-- Semantics of each binary operator as applied by `operator.*`: `+` adds
numbers and concatenates strings or lists; `/` always produces a float
(unmodelled); `%` is floored remainder with `ZeroDivisionError` on zero
(string formatting unmodelled); `&&`/`||` are `operator.and_`/`or_`, i.e.
boolean on bools and bitwise on ints (the latter unmodelled); sequence
repetition for `*` is unmodelled. -/
def applyBinOp (op : String) (l r : Val) : Except ExErr Val :=
  match op with
  | "==" => .ok (.bool (pyEq l r))
  | "!=" => .ok (.bool (!pyEq l r))
  | "<" => applyCmp (fun a b => decide (a < b)) (fun a b => decide (a < b)) l r
  | ">" => applyCmp (fun a b => decide (b < a)) (fun a b => decide (b < a)) l r
  | "<=" => applyCmp (fun a b => decide (a ≤ b)) (fun a b => decide (a ≤ b)) l r
  | ">=" => applyCmp (fun a b => decide (b ≤ a)) (fun a b => decide (b ≤ a)) l r
  | "-" =>
    match cmpNum l, cmpNum r with
    | some a, some b => .ok (.int (a - b))
    | _, _ => .error .typeError
  | "*" =>
    match cmpNum l, cmpNum r with
    | some a, some b => .ok (.int (a * b))
    | _, _ =>
      match l, r with
      | .str _, .int _ => .error .unmodelled
      | .int _, .str _ => .error .unmodelled
      | .list _, .int _ => .error .unmodelled
      | .int _, .list _ => .error .unmodelled
      | _, _ => .error .typeError
  | "/" => .error .unmodelled
  | "%" =>
    match cmpNum l, cmpNum r with
    | some a, some b =>
      if b = 0 then .error .zeroDivisionError else .ok (.int (Int.fmod a b))
    | _, _ =>
      match l with
      | .str _ => .error .unmodelled
      | _ => .error .typeError
  | "&&" =>
    match l, r with
    | .bool a, .bool b => .ok (.bool (a && b))
    | _, _ =>
      if (cmpNum l).isSome && (cmpNum r).isSome then .error .unmodelled
      else .error .typeError
  | "||" =>
    match l, r with
    | .bool a, .bool b => .ok (.bool (a || b))
    | _, _ =>
      if (cmpNum l).isSome && (cmpNum r).isSome then .error .unmodelled
      else .error .typeError
  | "+" =>
    match cmpNum l, cmpNum r with
    | some a, some b => .ok (.int (a + b))
    | _, _ =>
      match l, r with
      | .str a, .str b => .ok (.str (a ++ b))
      | .list xs, .list ys => .ok (.list (xs ++ ys))
      | _, _ => .error .typeError
  | _ => .error .keyError

/-- `MatrixBlock._function_cross` from `matrix.py`: the arity check raises
`ValueError` outside the `try`; inside it, the first loop iteration calls the
undefined `ctx.sub_context`, whose `AttributeError` the bare `except:` turns
into a plain `Exception`; with no combinations the loop body never runs and
the empty result list is returned. -/
def function_cross_matrix (values : List (String × List Val)) (args : List Expr) :
    Except ExErr Val :=
  match args with
  | [_] =>
    match cross_product values with
    | [] => .ok (.list [])
    | _ :: _ => .error .exception
  | _ => .error .valueError

mutual

/-- `Eval.eval` from `exec.py` (the evaluator `ExecContext.eval` instantiates).
String literals go through `string.Template` substitution, modelled for
placeholder-free strings only. `GetAttr` on a plain runtime value falls back
to Python `getattr`, which raises `AttributeError` for HCL-level names. In
`_eval_UnaryOp` the operator dictionary is built but never indexed — the
source returns `func(value)`, calling the dict itself, a `TypeError` — so
every unary expression whose operand evaluates fails with `TypeError`.
`_eval_BinaryOp` indexes its dictionary first (`KeyError` for unknown
operators, before the operands are evaluated). -/
def eval_exec : Nat → Expr → Ctx → Except ExErr Val
  | 0, _, _ => .error .fuelExhausted
  | fuel + 1, e, c =>
    match e with
    | .lit (.str s) => if s.contains '$' then .error .unmodelled else .ok (.str s)
    | .lit v => .ok v
    | .ident name => attr_get c name
    | .array es => do
      let vs ← eval_list_exec fuel es c
      .ok (.list vs)
    | .object fs => do
      let vs ← eval_fields_exec fuel fs c
      .ok (.map vs)
    | .fnCall name args => function_eval fuel name args c
    | .getAttr obj _ => do
      let _ ← eval_exec fuel obj c
      .error .attributeError
    | .unaryOp _ e1 => do
      let _ ← eval_exec fuel e1 c
      .error .typeError
    | .binaryOp op l r =>
      if knownBinOps.contains op then do
        let lv ← eval_exec fuel l c
        let rv ← eval_exec fuel r c
        applyBinOp op lv rv
      else .error .keyError

def eval_list_exec : Nat → List Expr → Ctx → Except ExErr (List Val)
  | 0, _, _ => .error .fuelExhausted
  | _ + 1, [], _ => .ok []
  | fuel + 1, e :: es, c => do
    let v ← eval_exec fuel e c
    let vs ← eval_list_exec fuel es c
    .ok (v :: vs)

def eval_fields_exec : Nat → List (String × Expr) → Ctx → Except ExErr (List (String × Val))
  | 0, _, _ => .error .fuelExhausted
  | _ + 1, [], _ => .ok []
  | fuel + 1, (k, e) :: fs, c => do
    let v ← eval_exec fuel e c
    let vs ← eval_fields_exec fuel fs c
    .ok ((k, v) :: vs)

/-- `ExecContext.function_eval`: split the name on the double-underscore
delimiter, descend through named sub-blocks and variables, and when exactly
one segment remains on a block, invoke that block's function (renamed node);
its `AttributeError` is swallowed and resolution escalates to the parent.
The `elif not parts and callable(current)` arm is unreachable: `split` never
returns an empty list and no modelled runtime value is callable, so every
other outcome escalates; the root re-raises `AttributeError`. -/
def function_eval : Nat → String → List Expr → Ctx → Except ExErr Val
  | 0, _, _, _ => .error .fuelExhausted
  | fuel + 1, name, args, c =>
    match resolveQual (splitDunder name) (.inCtx c) with
    | .error e => .error e
    | .ok (parts, cur) =>
      match parts, cur with
      | [p], .inBlk b =>
        match block_function_eval fuel b p args c with
        | .error .attributeError => function_eval_parent fuel name args c
        | r => r
      | _, _ => function_eval_parent fuel name args c

/-- The escalation step at the end of `ExecContext.function_eval`:
`if self.parent: return self.parent.function_eval(node)` else re-raise. -/
def function_eval_parent : Nat → String → List Expr → Ctx → Except ExErr Val
  | 0, _, _, _ => .error .fuelExhausted
  | fuel + 1, name, args, c =>
    match c with
    | .sub _ _ _ p => function_eval fuel name args p
    | .root _ _ _ => .error .attributeError

/-- `Block.function_eval`: `MatrixBlock` registers the single block function
`cross`; every other lookup — including `cross` on a plain block, whose
`getattr(self, "_function_cross")` fails — raises `AttributeError`. -/
def block_function_eval : Nat → BlockM → String → List Expr → Ctx → Except ExErr Val
  | 0, _, _, _, _ => .error .fuelExhausted
  | _ + 1, .plain _ _, _, _, _ => .error .attributeError
  | fuel + 1, .matrix impl values, fname, args, c =>
    if fname = "cross" then
      match impl with
      | .fromMatrixPy => function_cross_matrix values args
      | .fromExecPy => function_cross_exec fuel values args c
    else .error .attributeError

/-- `MatrixBlock._function_cross` from the duplicate inside `exec.py`:
arity-checked (`ValueError`), then the argument is evaluated once per
combination in `ctx.with_variables(variables)`; the bare `except:` re-raises
any evaluation failure as a plain `Exception` (fuel exhaustion of the
embedding is passed through undisturbed). -/
def function_cross_exec : Nat → List (String × List Val) → List Expr → Ctx → Except ExErr Val
  | 0, _, _, _ => .error .fuelExhausted
  | fuel + 1, values, args, c =>
    match args with
    | [arg] =>
      match cross_go fuel (cross_product values) arg c with
      | .ok rs => .ok (.list rs)
      | .error .fuelExhausted => .error .fuelExhausted
      | .error _ => .error .exception
    | _ => .error .valueError

def cross_go : Nat → List (List (String × Val)) → Expr → Ctx → Except ExErr (List Val)
  | 0, _, _, _ => .error .fuelExhausted
  | _ + 1, [], _, _ => .ok []
  | fuel + 1, combo :: rest, arg, c => do
    let v ← eval_exec fuel arg (with_variables c combo)
    let vs ← cross_go fuel rest arg c
    .ok (v :: vs)

end

mutual

/-- `EvalContext.eval` from `eval.py` (the orphaned evaluator the `env.py`
factories point at): identical to `Eval` from `exec.py` except that
`_eval_UnaryOp` correctly indexes its operator dictionary, applying
`operator.neg` and `operator.not_`. `FunctionCall` still delegates to
`ExecContext.function_eval`. -/
def eval_evalctx : Nat → Expr → Ctx → Except ExErr Val
  | 0, _, _ => .error .fuelExhausted
  | fuel + 1, e, c =>
    match e with
    | .lit (.str s) => if s.contains '$' then .error .unmodelled else .ok (.str s)
    | .lit v => .ok v
    | .ident name => attr_get c name
    | .array es => do
      let vs ← eval_list_evalctx fuel es c
      .ok (.list vs)
    | .object fs => do
      let vs ← eval_fields_evalctx fuel fs c
      .ok (.map vs)
    | .fnCall name args => function_eval fuel name args c
    | .getAttr obj _ => do
      let _ ← eval_evalctx fuel obj c
      .error .attributeError
    | .unaryOp op e1 =>
      match op with
      | "-" => do
        let v ← eval_evalctx fuel e1 c
        pyNeg v
      | "!" => do
        let v ← eval_evalctx fuel e1 c
        .ok (.bool (!pyTruthy v))
      | _ => .error .keyError
    | .binaryOp op l r =>
      if knownBinOps.contains op then do
        let lv ← eval_evalctx fuel l c
        let rv ← eval_evalctx fuel r c
        applyBinOp op lv rv
      else .error .keyError

def eval_list_evalctx : Nat → List Expr → Ctx → Except ExErr (List Val)
  | 0, _, _ => .error .fuelExhausted
  | _ + 1, [], _ => .ok []
  | fuel + 1, e :: es, c => do
    let v ← eval_evalctx fuel e c
    let vs ← eval_list_evalctx fuel es c
    .ok (v :: vs)

def eval_fields_evalctx : Nat → List (String × Expr) → Ctx → Except ExErr (List (String × Val))
  | 0, _, _ => .error .fuelExhausted
  | _ + 1, [], _ => .ok []
  | fuel + 1, (k, e) :: fs, c => do
    let v ← eval_evalctx fuel e c
    let vs ← eval_fields_evalctx fuel fs c
    .ok ((k, v) :: vs)

end

/-! ## The api-world: `Context`, `Stanza`, `Evaluator`, `Interpreter`
(`api.py`, `stanza.py`, `error.py`) -/

/-- Messages carried by `ConfigurationError` (`error.py`); the formatted
Python strings are represented structurally. The stanza reference stored on
the exception is omitted. -/
inductive EMsg where
  | attrDoesNotExist (name : String)
  | fnDoesNotExist (name : String)
  | stanzaDoesNotExist (name : String)
  | custom (text : String)
deriving DecidableEq, Repr

/-- `ConfigurationError`: a message plus the aggregated causes. -/
inductive ConfigErr where
  | mk (msg : EMsg) (causes : List ConfigErr)

/-- Exceptions in the api-world: `ConfigurationError` (the only class the
resolution loops catch) versus every other Python exception (validation,
type and not-implemented errors), represented by `other` with the exception's
text. `fuelExhausted` is an artifact of the fuel-bounded embedding. -/
inductive ApiExc where
  | config (e : ConfigErr)
  | other (text : String)
  | fuelExhausted

/-- The `Function` protocol from `types.py`. -/
def FnM : Type := List Val → Except ApiExc Val

/-- A `Stanza`: either a `CommonStanza` backed by its attribute and function
dicts (attribute values may themselves be stanzas), or a consumer-defined
subclass given by its `attribute_get`/`function_get` handlers, which may
raise arbitrary exceptions. -/
inductive StanzaM where
  | common (attrs : List (String × (Val ⊕ StanzaM))) (fns : List (String × FnM))
  | custom (attrGetF : String → Except ApiExc (Val ⊕ StanzaM))
      (fnGetF : String → Except ApiExc FnM)

/-- A `Context.target`: the code allows arbitrary objects; only `Stanza`
targets take part in resolution. -/
inductive TargA where
  | stanza (s : StanzaM)
  | nonStanza

/-- A `Context`: a target and an optional parent. -/
inductive ContextA where
  | root (target : TargA)
  | cons (target : TargA) (parent : ContextA)

/-- `Stanza.attribute_get` / `CommonStanza.attribute_get`: a dict hit returns
the stored value; otherwise the base class raises `ConfigurationError`
("attribute does not exist", no causes). A custom subclass runs its own
handler. -/
def stanza_attribute_get : StanzaM → String → Except ApiExc (Val ⊕ StanzaM)
  | .common attrs _, name =>
    match attrs.lookup name with
    | some v => .ok v
    | none => .error (.config (.mk (.attrDoesNotExist name) []))
  | .custom f _, name => f name

/-- `Stanza.function_get` / `CommonStanza.function_get`, same shape. -/
def stanza_function_get : StanzaM → String → Except ApiExc FnM
  | .common _ fns, name =>
    match fns.lookup name with
    | some f => .ok f
    | none => .error (.config (.mk (.fnDoesNotExist name) []))
  | .custom _ g, name => g name

/-- The `for context in self.iter_hierarchy_up()` loop of
`Context.attribute_get`: non-stanza targets are skipped; a
`ConfigurationError` from a stanza is collected and the walk continues; any
other exception propagates immediately; a found `Stanza` value is wrapped as
`Context.stanza(value, self)` — a fresh context whose parent is the original
querying context `self`. When the chain is exhausted, a `ConfigurationError`
aggregating every collected cause is raised. -/
def attribute_get_aux (self : ContextA) :
    ContextA → List ConfigErr → String → Except ApiExc (Val ⊕ ContextA)
  | .root t, excs, name =>
    match t with
    | .nonStanza => .error (.config (.mk (.attrDoesNotExist name) excs))
    | .stanza s =>
      match stanza_attribute_get s name with
      | .ok (.inl v) => .ok (.inl v)
      | .ok (.inr st) => .ok (.inr (.cons (.stanza st) self))
      | .error (.config e) => .error (.config (.mk (.attrDoesNotExist name) (excs ++ [e])))
      | .error err => .error err
  | .cons t p, excs, name =>
    match t with
    | .nonStanza => attribute_get_aux self p excs name
    | .stanza s =>
      match stanza_attribute_get s name with
      | .ok (.inl v) => .ok (.inl v)
      | .ok (.inr st) => .ok (.inr (.cons (.stanza st) self))
      | .error (.config e) => attribute_get_aux self p (excs ++ [e]) name
      | .error err => .error err

/-- `Context.attribute_get`. -/
def attribute_get (c : ContextA) (name : String) : Except ApiExc (Val ⊕ ContextA) :=
  attribute_get_aux c c [] name

/-- The hierarchy walk of `Context.function_get`, same escalation policy. -/
def function_get_aux : ContextA → List ConfigErr → String → Except ApiExc FnM
  | .root t, excs, name =>
    match t with
    | .nonStanza => .error (.config (.mk (.fnDoesNotExist name) excs))
    | .stanza s =>
      match stanza_function_get s name with
      | .ok f => .ok f
      | .error (.config e) => .error (.config (.mk (.fnDoesNotExist name) (excs ++ [e])))
      | .error err => .error err
  | .cons t p, excs, name =>
    match t with
    | .nonStanza => function_get_aux p excs name
    | .stanza s =>
      match stanza_function_get s name with
      | .ok f => .ok f
      | .error (.config e) => function_get_aux p (excs ++ [e]) name
      | .error err => .error err

/-- `Context.function_get`. -/
def function_get (c : ContextA) (name : String) : Except ApiExc FnM :=
  function_get_aux c [] name

/-- A chain in which every stanza target reports not-found for `name`:
returns the collected `ConfigurationError`s in chain order, `none` if some
stanza resolves the name or raises a non-configuration exception. -/
def chainNotFound : ContextA → String → Option (List ConfigErr)
  | .root t, name =>
    match t with
    | .nonStanza => some []
    | .stanza s =>
      match stanza_attribute_get s name with
      | .error (.config e) => some [e]
      | _ => none
  | .cons t p, name =>
    match t with
    | .nonStanza => chainNotFound p name
    | .stanza s =>
      match stanza_attribute_get s name with
      | .error (.config e) => (chainNotFound p name).map (fun es => e :: es)
      | _ => none

/-- The `@beartype` return check on `Evaluator.evaluate`, whose declared
return type is `ValueType`: a `Context` result is rejected with a return-type
violation; plain values pass. -/
def beartypeGate (r : Val ⊕ ContextA) : Except ApiExc (Val ⊕ ContextA) :=
  match r with
  | .inl v => .ok (.inl v)
  | .inr _ => .error (.other "beartype: return value is not a ValueType")

mutual

/-- The dispatch body of `Evaluator.evaluate` from `api.py` (the `_eval_*`
methods). `_eval_Literal` returns the parsed value unchanged (no templating).
`_eval_GetAttr` evaluates `on` through `evaluate` — whose beartype return
check (`beartypeGate`) rejects `Context` results, so the
`isinstance(value, Context)` branch is unreachable — and otherwise returns
the evaluated value itself, with no structural field lookup.
`_eval_UnaryOp` and `_eval_BinaryOp` raise `NotImplementedError` before
evaluating any operand. -/
def eval_core_api : Nat → Expr → ContextA → Except ApiExc (Val ⊕ ContextA)
  | 0, _, _ => .error .fuelExhausted
  | fuel + 1, e, c =>
    match e with
    | .lit v => .ok (.inl v)
    | .ident name => attribute_get c name
    | .array es => do
      let vs ← eval_vals_api fuel es c
      .ok (.inl (.list vs))
    | .object fs => do
      let vs ← eval_fields_api fuel fs c
      .ok (.inl (.map vs))
    | .fnCall name args => do
      let f ← function_get c name
      let vs ← eval_vals_api fuel args c
      match f vs with
      | .ok v => .ok (.inl v)
      | .error err => .error err
    | .getAttr obj name => do
      let r ← eval_core_api fuel obj c
      match beartypeGate r with
      | .error err => .error err
      | .ok (.inr c2) => attribute_get c2 name
      | .ok (.inl v) => .ok (.inl v)
    | .unaryOp _ _ => .error (.other "NotImplementedError")
    | .binaryOp _ _ _ => .error (.other "NotImplementedError")

/-- Argument/element evaluation through `evaluate` (gate included). -/
def eval_vals_api : Nat → List Expr → ContextA → Except ApiExc (List Val)
  | 0, _, _ => .error .fuelExhausted
  | _ + 1, [], _ => .ok []
  | fuel + 1, e :: es, c => do
    let r ← eval_core_api fuel e c
    match beartypeGate r with
    | .error err => .error err
    | .ok (.inr _) => .error (.other "unreachable")
    | .ok (.inl v) => do
      let vs ← eval_vals_api fuel es c
      .ok (v :: vs)

def eval_fields_api : Nat → List (String × Expr) → ContextA →
    Except ApiExc (List (String × Val))
  | 0, _, _ => .error .fuelExhausted
  | _ + 1, [], _ => .ok []
  | fuel + 1, (k, e) :: fs, c => do
    let r ← eval_core_api fuel e c
    match beartypeGate r with
    | .error err => .error err
    | .ok (.inr _) => .error (.other "unreachable")
    | .ok (.inl v) => do
      let vs ← eval_fields_api fuel fs c
      .ok ((k, v) :: vs)

end

/-- `Evaluator.evaluate` from `api.py`: dispatch plus the beartype return
check on the declared `ValueType` return type. -/
def evaluate_api (fuel : Nat) (e : Expr) (c : ContextA) :
    Except ApiExc (Val ⊕ ContextA) :=
  match eval_core_api fuel e c with
  | .ok r => beartypeGate r
  | .error err => .error err

/-! ## The `Interpreter` block handler (`api.py`), as a call trace -/

/-- HCL2 statements. -/
inductive Stmt where
  | attr (key : String) (value : Expr)
  | blockStmt (name : String) (args : List Expr) (body : List Stmt)

/-- The calls `Interpreter._handle_Block` makes, in order: argument
evaluations, `context.stanza_open`, recursive execution of each body
statement, and `new_context.close()`. -/
inductive InterpCall where
  | evalArg (e : Expr)
  | stanzaOpen (name : String) (args : List Expr)
  | execStmt (s : Stmt)
  | closeCall

/-- `Interpreter._handle_Block`: with `enable_blocks` set and the block name
absent from it, or with `disable_blocks` containing the name, the method
returns before doing anything; otherwise it evaluates the arguments, opens
the stanza, executes the body statements in order and closes the new
context. -/
def handle_block_calls (enableBlocks disableBlocks : Option (List String))
    (name : String) (args : List Expr) (body : List Stmt) : List InterpCall :=
  if (match enableBlocks with
      | some es => !(es.contains name)
      | none => false) then []
  else if (match disableBlocks with
      | some ds => ds.contains name
      | none => false) then []
  else
    (args.map InterpCall.evalArg) ++ [InterpCall.stanzaOpen name args]
      ++ (body.map InterpCall.execStmt) ++ [InterpCall.closeCall]

/-! ## Concrete fixtures used by witnesses and counterexamples -/

/-- A context frame: the data of one non-root `ExecContext`. -/
structure Frame where
  vars : List (String × Val)
  blk : BlockM
  named : List (String × BlockM)

/-- Stack the given frames (head = innermost descendant) on top of an
ancestor context. -/
def ctxOfFrames : List Frame → Ctx → Ctx
  | [], a => a
  | f :: fs, a => .sub f.vars f.blk f.named (ctxOfFrames fs a)

/-- A descendant frame binding the local variable `loc` and owning a block
that recognizes (and sets) the attribute `w`. -/
def descFrame : Frame :=
  ⟨[("loc", .int 9)], .plain ["w"] [("w", .int 7)], []⟩

/-- An ancestor (root) context whose block defines the attribute `g`. -/
def ancCtx : Ctx :=
  .root [] (.plain ["g"] [("g", .int 3)]) []

/-- The matrix block of C4: factors `x = [1, 2]`. -/
def m1Matrix (impl : MatrixImpl) : BlockM :=
  .matrix impl [("x", [Val.int 1, Val.int 2])]

/-- The enclosing context of C4, with the matrix registered under `m1` in the
named-sub-block registry (as `MatrixBlock.__init__` does when the matrix
statement has a leading argument). -/
def c4Ctx (impl : MatrixImpl) : Ctx :=
  .root [] (.plain [] []) [("m1", m1Matrix impl)]

/-- An empty exec-world root context. -/
def emptyCtxE : Ctx := .root [] (.plain [] []) []

/-- A consumer stanza whose handlers reject every request with a validation
error (not a `ConfigurationError`). -/
def validationStanza : StanzaM :=
  .custom (fun _ => .error (.other "ValidationError"))
    (fun _ => .error (.other "ValidationError"))

/-- A parent context that does define the attribute `x`. -/
def baseChain : ContextA :=
  .root (.stanza (.common [("x", .inl (.int 1))] []))

/-- A function that fails on application with a validation error. -/
def failingFn : FnM := fun _ => .error (.other "ValidationError")

/-- A root context exposing the function `boom` (which fails when called). -/
def fnChain : ContextA :=
  .root (.stanza (.common [] [("boom", failingFn)]))

/-- An empty `CommonStanza`. -/
def emptyCommon : StanzaM := .common [] []

/-- A two-context chain in which no stanza knows any attribute. -/
def chain2 : ContextA :=
  .cons (.stanza emptyCommon) (.root (.stanza emptyCommon))

/-- A root context whose stanza maps `m` to the map value
`\x7b "name": 42 \x7d`. -/
def ctxMap : ContextA :=
  .root (.stanza (.common [("m", .inl (.map [("name", .int 42)]))] []))

/-- A root context whose stanza exposes the nested (empty) stanza `s` and the
plain attribute `a = 5`. -/
def ctxNest : ContextA :=
  .root (.stanza (.common [("s", .inr emptyCommon), ("a", .inl (.int 5))] []))

/-! ## Claim theorems -/

/-- C3: an attribute defined only on an ancestor context is visible from a
descendant context, and the nearest definition wins: (i) if no context below
the ancestor binds the name (no local variable, and the owning block's
`attr_get` raises `AttributeError` — i.e. the name is not a recognized, set
attribute there), the descendant's `attr_get` agrees with the ancestor's;
(ii) a local variable binding of the descendant shadows everything above;
(iii) otherwise the descendant's own recognized, set block attribute shadows
the ancestors. -/
theorem attr_get_upward_fallback :
    (∀ (fs : List Frame) (a : Ctx) (name : String) (v : Val),
      (∀ f ∈ fs, f.vars.lookup name = none
        ∧ block_attr_get f.blk name = .error .attributeError) →
      attr_get a name = .ok v →
      attr_get (ctxOfFrames fs a) name = .ok v)
    ∧ (∀ (f : Frame) (fs : List Frame) (a : Ctx) (name : String) (v : Val),
      f.vars.lookup name = some v →
      attr_get (ctxOfFrames (f :: fs) a) name = .ok v)
    ∧ (∀ (f : Frame) (fs : List Frame) (a : Ctx) (name : String) (v : Val),
      f.vars.lookup name = none → block_attr_get f.blk name = .ok v →
      attr_get (ctxOfFrames (f :: fs) a) name = .ok v) := by
  refine ⟨?_, ?_, ?_⟩
  · intro fs a name v hmid ha
    induction fs with
    | nil => simpa [ctxOfFrames] using ha
    | cons f fs ih =>
      have hf := hmid f (by simp)
      have hrest : ∀ g ∈ fs, g.vars.lookup name = none
          ∧ block_attr_get g.blk name = .error .attributeError :=
        fun g hg => hmid g (by simp [hg])
      simp [ctxOfFrames, attr_get, hf.1, hf.2, ih hrest]
  · intro f fs a name v hv
    simp [ctxOfFrames, attr_get, hv]
  · intro f fs a name v hnone hok
    simp [ctxOfFrames, attr_get, hnone, hok]

/-- Witness for C3: from the descendant, the ancestor-only attribute `g` is
visible with the ancestor's value, while the local variable `loc` and the
descendant block's own attribute `w` resolve to the nearest definitions. -/
theorem attr_get_upward_fallback_witness :
    attr_get (ctxOfFrames [descFrame] ancCtx) "g" = .ok (.int 3)
    ∧ attr_get (ctxOfFrames [descFrame] ancCtx) "loc" = .ok (.int 9)
    ∧ attr_get (ctxOfFrames [descFrame] ancCtx) "w" = .ok (.int 7) :=
  ⟨attr_get_upward_fallback.1 [descFrame] ancCtx "g" (.int 3)
      (by intro f hf
          rw [List.mem_singleton] at hf
          subst hf
          exact ⟨rfl, rfl⟩) rfl,
   attr_get_upward_fallback.2.1 descFrame [] ancCtx "loc" (.int 9) rfl,
   attr_get_upward_fallback.2.2 descFrame [] ancCtx "w" (.int 7) rfl rfl⟩

/-- C4: with the matrix registered under `m1` holding the single factor
`x = [1, 2]`, the sibling call `m1__cross(x)` resolves `m1` through the
enclosing context's named-sub-block registry in both variants; with the
`MatrixBlock` duplicated inside `exec.py` it returns `[1, 2]` in order, as
the claim states, but with the `MatrixBlock` from `matrix.py` (the class the
claim cites) the call raises a plain `Exception`: `_function_cross` invokes
the undefined `ctx.sub_context`, and the bare `except:` re-raises. -/
theorem qualified_cross_dispatch_at_m1 :
    function_eval 10 "m1__cross" [.ident "x"] (c4Ctx .fromExecPy)
      = .ok (.list [Val.int 1, Val.int 2])
    ∧ function_eval 10 "m1__cross" [.ident "x"] (c4Ctx .fromMatrixPy)
      = .error .exception :=
  ⟨rfl, rfl⟩

/-- C5: upward escalation happens only for not-found conditions. A
non-`ConfigurationError` exception from a stanza's attribute or function
handler propagates immediately — for every possible parent chain, the parent
is never consulted — and once a function is correctly resolved, a failure of
its application propagates from `_eval_FunctionCall` unchanged. -/
theorem only_not_found_escalates :
    (∀ (self p : ContextA) (excs : List ConfigErr) (name text : String) (s : StanzaM),
      stanza_attribute_get s name = .error (.other text) →
      attribute_get_aux self (.cons (.stanza s) p) excs name = .error (.other text))
    ∧ (∀ (p : ContextA) (excs : List ConfigErr) (name text : String) (s : StanzaM),
      stanza_function_get s name = .error (.other text) →
      function_get_aux (.cons (.stanza s) p) excs name = .error (.other text))
    ∧ (∀ (fuel : Nat) (name : String) (args : List Expr) (c : ContextA) (f : FnM)
        (vs : List Val) (err : ApiExc),
      function_get c name = .ok f →
      eval_vals_api fuel args c = .ok vs →
      f vs = .error err →
      evaluate_api (fuel + 1) (.fnCall name args) c = .error err) := by
  refine ⟨?_, ?_, ?_⟩
  · intro self p excs name text s h
    simp [attribute_get_aux, h]
  · intro p excs name text s h
    simp [function_get_aux, h]
  · intro fuel name args c f vs err h1 h2 h3
    simp [evaluate_api, eval_core_api, h1, h2, h3, Bind.bind, Except.bind]

/-- Witness for C5: a validation-raising stanza stops attribute resolution
even though the parent defines the attribute, and a resolved function's
failure propagates through evaluation. -/
theorem only_not_found_escalates_witness :
    stanza_attribute_get validationStanza "x" = .error (.other "ValidationError")
    ∧ attribute_get (.cons (.stanza validationStanza) baseChain) "x"
        = .error (.other "ValidationError")
    ∧ function_get fnChain "boom" = .ok failingFn
    ∧ eval_vals_api 1 [] fnChain = .ok []
    ∧ failingFn [] = .error (.other "ValidationError")
    ∧ evaluate_api 2 (.fnCall "boom" []) fnChain
        = .error (.other "ValidationError") :=
  ⟨rfl,
   only_not_found_escalates.1 (.cons (.stanza validationStanza) baseChain)
     baseChain [] "x" "ValidationError" validationStanza rfl,
   rfl, rfl, rfl,
   only_not_found_escalates.2.2 1 "boom" [] fnChain failingFn [] _ rfl rfl rfl⟩

theorem attribute_get_aux_notFound (self : ContextA) (cur : ContextA)
    (name : String) :
    ∀ (excs es : List ConfigErr), chainNotFound cur name = some es →
      attribute_get_aux self cur excs name
        = .error (.config (.mk (.attrDoesNotExist name) (excs ++ es))) := by
  induction cur with
  | root t =>
    intro excs es h
    cases t with
    | nonStanza =>
      simp only [chainNotFound, Option.some.injEq] at h
      subst h
      simp [attribute_get_aux]
    | stanza s =>
      cases hsa : stanza_attribute_get s name with
      | ok v => simp [chainNotFound, hsa] at h
      | error err =>
        cases err with
        | config e =>
          simp only [chainNotFound, hsa, Option.some.injEq] at h
          subst h
          simp [attribute_get_aux, hsa]
        | other text => simp [chainNotFound, hsa] at h
        | fuelExhausted => simp [chainNotFound, hsa] at h
  | cons t p ih =>
    intro excs es h
    cases t with
    | nonStanza =>
      simp only [chainNotFound] at h
      simpa [attribute_get_aux] using ih excs es h
    | stanza s =>
      cases hsa : stanza_attribute_get s name with
      | ok v => simp [chainNotFound, hsa] at h
      | error err =>
        cases err with
        | config e =>
          simp only [chainNotFound, hsa, Option.map_eq_some'] at h
          obtain ⟨es2, hes2, rfl⟩ := h
          have := ih (excs ++ [e]) es2 hes2
          simpa [attribute_get_aux, hsa, List.append_assoc] using this
        | other text => simp [chainNotFound, hsa] at h
        | fuelExhausted => simp [chainNotFound, hsa] at h

/-- C6: when no context in the chain resolves the name — every stanza target
reports not-found (and non-stanza targets are skipped) — `attribute_get`
fails with an "attribute does not exist" `ConfigurationError` whose causes
are exactly the intermediate not-found failures collected along the chain, in
order. -/
theorem attribute_get_aggregates_causes (c : ContextA) (name : String)
    (es : List ConfigErr) (h : chainNotFound c name = some es) :
    attribute_get c name = .error (.config (.mk (.attrDoesNotExist name) es)) := by
  simpa using attribute_get_aux_notFound c c name [] es h

/-- Witness for C6 on a two-context chain of empty stanzas. -/
theorem attribute_get_aggregates_causes_witness :
    chainNotFound chain2 "x"
      = some [ConfigErr.mk (.attrDoesNotExist "x") [], ConfigErr.mk (.attrDoesNotExist "x") []]
    ∧ attribute_get chain2 "x"
      = .error (.config (.mk (.attrDoesNotExist "x")
          [ConfigErr.mk (.attrDoesNotExist "x") [], ConfigErr.mk (.attrDoesNotExist "x") []])) :=
  ⟨rfl, attribute_get_aggregates_causes chain2 "x" _ rfl⟩

/-- C7 counterexample: evaluating `GetAttr(on, name)` where `on` evaluates to
the map value with field `name = 42` returns the map itself, not the field
(no structural lookup happens); and where `on` names a nested stanza, the
beartype return check on `evaluate` rejects the `Context` result, so no
block-scoped nested lookup happens either — the claim fails on both arms. -/
theorem get_attr_counterexample :
    evaluate_api 2 (.getAttr (.ident "m") "name") ctxMap
      = .ok (.inl (.map [("name", .int 42)]))
    ∧ evaluate_api 2 (.getAttr (.ident "m") "name") ctxMap ≠ .ok (.inl (.int 42))
    ∧ evaluate_api 2 (.getAttr (.ident "s") "a") ctxNest
      = .error (.other "beartype: return value is not a ValueType") := by
  refine ⟨rfl, ?_, rfl⟩
  intro h
  have h2 : (Except.ok (Sum.inl (Val.map [("name", Val.int 42)]))
      : Except ApiExc (Val ⊕ ContextA)) = .ok (.inl (.int 42)) := h
  simp at h2

/-- C7 amended: `_eval_GetAttr` evaluates `on` through `evaluate`, whose
beartype return check rejects block-shaped results — so a block-shaped `on`
makes the whole evaluation fail with a return-type validation error (the
nested-lookup branch is unreachable: evaluation never yields a `Context`) —
and any other evaluated value is returned unchanged, with no structural field
lookup. Errors of the inner evaluation propagate. -/
theorem get_attr_amended :
    (∀ (fuel : Nat) (e : Expr) (name : String) (c : ContextA) (v : Val),
      evaluate_api fuel e c = .ok (.inl v) →
      evaluate_api (fuel + 1) (.getAttr e name) c = .ok (.inl v))
    ∧ (∀ (fuel : Nat) (e : Expr) (name : String) (c : ContextA) (err : ApiExc),
      evaluate_api fuel e c = .error err →
      evaluate_api (fuel + 1) (.getAttr e name) c = .error err)
    ∧ (∀ (fuel : Nat) (e : Expr) (c : ContextA) (c2 : ContextA),
      evaluate_api fuel e c ≠ .ok (.inr c2)) := by
  have step : ∀ (fuel : Nat) (e : Expr) (name : String) (c : ContextA),
      evaluate_api (fuel + 1) (.getAttr e name) c
        = match evaluate_api fuel e c with
          | .ok (.inl v) => .ok (.inl v)
          | .ok (.inr c2) => attribute_get c2 name
          | .error err => .error err := by
    intro fuel e name c
    cases hcore : eval_core_api fuel e c with
    | ok r =>
      cases r with
      | inl v =>
        simp [evaluate_api, eval_core_api, hcore, beartypeGate, Bind.bind, Except.bind]
      | inr c2 =>
        simp [evaluate_api, eval_core_api, hcore, beartypeGate, Bind.bind, Except.bind]
    | error err =>
      simp [evaluate_api, eval_core_api, hcore, Bind.bind, Except.bind]
  have gate : ∀ (fuel : Nat) (e : Expr) (c : ContextA) (c2 : ContextA),
      evaluate_api fuel e c ≠ .ok (.inr c2) := by
    intro fuel e c c2 h
    cases hcore : eval_core_api fuel e c with
    | ok r =>
      cases r with
      | inl v => simp [evaluate_api, hcore, beartypeGate] at h
      | inr c3 => simp [evaluate_api, hcore, beartypeGate] at h
    | error err => simp [evaluate_api, hcore] at h
  refine ⟨?_, ?_, gate⟩
  · intro fuel e name c v h
    rw [step, h]
  · intro fuel e name c err h
    rw [step, h]

/-- Witness for C7's amended theorem: a literal passes through `GetAttr`
unchanged. -/
theorem get_attr_amended_witness :
    evaluate_api 1 (.lit (.int 7)) ctxMap = .ok (.inl (.int 7))
    ∧ evaluate_api 2 (.getAttr (.lit (.int 7)) "z") ctxMap = .ok (.inl (.int 7)) :=
  ⟨rfl, get_attr_amended.1 1 (.lit (.int 7)) "z" ctxMap (.int 7) rfl⟩

theorem eval_evalctx_unary_neg (fuel : Nat) (e : Expr) (c : Ctx) :
    eval_evalctx (fuel + 1) (.unaryOp "-" e) c
      = (eval_evalctx fuel e c) >>= pyNeg := rfl

theorem eval_evalctx_plus (fuel : Nat) (l r : Expr) (c : Ctx) :
    eval_evalctx (fuel + 1) (.binaryOp "+" l r) c
      = (eval_evalctx fuel l c) >>= fun lv =>
          (eval_evalctx fuel r c) >>= fun rv => applyBinOp "+" lv rv := rfl

theorem eval_exec_unary (fuel : Nat) (op : String) (e : Expr) (c : Ctx) :
    eval_exec (fuel + 1) (.unaryOp op e) c
      = (eval_exec fuel e c) >>= fun _ => .error .typeError := rfl

/-- C8: the status of unary/binary evaluation across the three evaluators.
`EvalContext` (`eval.py`) implements the claim: unary `-` on an integer `n`
returns `-n` and binary `+` on integers returns the exact sum. But
`Eval._eval_UnaryOp` in `exec.py` — the evaluator `ExecContext.eval` actually
instantiates — never indexes its operator dictionary and calls the dict
itself, so every unary expression whose operand evaluates raises `TypeError`;
and `api.py`'s `Evaluator` raises `NotImplementedError` for every unary and
binary expression. -/
theorem unary_binary_semantics_status :
    (∀ (fuel : Nat) (e : Expr) (c : Ctx) (n : Int),
      eval_evalctx fuel e c = .ok (.int n) →
      eval_evalctx (fuel + 1) (.unaryOp "-" e) c = .ok (.int (-n)))
    ∧ (∀ (fuel : Nat) (l r : Expr) (c : Ctx) (a b : Int),
      eval_evalctx fuel l c = .ok (.int a) → eval_evalctx fuel r c = .ok (.int b) →
      eval_evalctx (fuel + 1) (.binaryOp "+" l r) c = .ok (.int (a + b)))
    ∧ (∀ (fuel : Nat) (op : String) (e : Expr) (c : Ctx) (v : Val),
      eval_exec fuel e c = .ok v →
      eval_exec (fuel + 1) (.unaryOp op e) c = .error .typeError)
    ∧ (∀ (fuel : Nat) (op : String) (e : Expr) (c : ContextA),
      evaluate_api (fuel + 1) (.unaryOp op e) c = .error (.other "NotImplementedError"))
    ∧ (∀ (fuel : Nat) (op : String) (l r : Expr) (c : ContextA),
      evaluate_api (fuel + 1) (.binaryOp op l r) c
        = .error (.other "NotImplementedError")) := by
  refine ⟨?_, ?_, ?_, ?_, ?_⟩
  · intro fuel e c n h
    rw [eval_evalctx_unary_neg, h]
    rfl
  · intro fuel l r c a b h1 h2
    rw [eval_evalctx_plus, h1]
    show (eval_evalctx fuel r c) >>= (fun rv => applyBinOp "+" (.int a) rv) = _
    rw [h2]
    rfl
  · intro fuel op e c v h
    rw [eval_exec_unary, h]
    rfl
  · intro fuel op e c
    rfl
  · intro fuel op l r c
    rfl

/-- Witness for C8 at `-1` and `2 + 3`: the `eval.py` evaluator computes the
values, the `exec.py` evaluator fails with `TypeError` on the same unary
input. -/
theorem unary_binary_semantics_status_witness :
    eval_evalctx 1 (.lit (.int 1)) emptyCtxE = .ok (.int 1)
    ∧ eval_evalctx 2 (.unaryOp "-" (.lit (.int 1))) emptyCtxE = .ok (.int (-1))
    ∧ eval_evalctx 2 (.binaryOp "+" (.lit (.int 2)) (.lit (.int 3))) emptyCtxE
        = .ok (.int (2 + 3))
    ∧ eval_exec 2 (.unaryOp "-" (.lit (.int 1))) emptyCtxE = .error .typeError :=
  ⟨rfl,
   unary_binary_semantics_status.1 1 (.lit (.int 1)) emptyCtxE 1 rfl,
   unary_binary_semantics_status.2.1 1 (.lit (.int 2)) (.lit (.int 3)) emptyCtxE 2 3 rfl rfl,
   unary_binary_semantics_status.2.2.1 1 "-" (.lit (.int 1)) emptyCtxE (.int 1) rfl⟩

/-- C10: if `enable_blocks` is set and does not contain the block's name, or
`disable_blocks` contains it, `_handle_Block` returns before doing anything:
no argument evaluation, no opener (`stanza_open`) invocation, no body
statement execution, no `close()`, no error — the empty call trace — so the
execution context is left unchanged. -/
theorem handle_block_skip_noop (enableBlocks disableBlocks : Option (List String))
    (name : String) (args : List Expr) (body : List Stmt)
    (h : (∃ es, enableBlocks = some es ∧ name ∉ es)
      ∨ (∃ ds, disableBlocks = some ds ∧ name ∈ ds)) :
    handle_block_calls enableBlocks disableBlocks name args body = [] := by
  rcases h with ⟨es, rfl, hn⟩ | ⟨ds, rfl, hd⟩
  · simp [handle_block_calls, List.contains, hn]
  · cases enableBlocks with
    | none => simp [handle_block_calls, List.contains, hd]
    | some es2 =>
      cases h2 : es2.elem name with
      | true => simp [handle_block_calls, List.contains, h2, hd]
      | false =>
        have hne : name ∉ es2 := by simpa using h2
        simp [handle_block_calls, List.contains, hne]

/-- Witness for C10: a `hello` block under `enable_blocks = ["other"]`, and
under `disable_blocks = ["hello"]`. -/
theorem handle_block_skip_noop_witness :
    handle_block_calls (some ["other"]) none "hello" [] [] = []
    ∧ handle_block_calls none (some ["hello"]) "hello" [] [] = [] :=
  ⟨handle_block_skip_noop (some ["other"]) none "hello" [] []
      (Or.inl ⟨["other"], rfl, by decide⟩),
   handle_block_skip_noop none (some ["hello"]) "hello" [] []
      (Or.inr ⟨["hello"], rfl, by decide⟩)⟩
